import Mathlib

/-!
Verification development for the stock-club brokerage ingestion pipeline
(schwab-parser module, storage module).

Modelling conventions:
* JavaScript numbers are modelled by `JNum`: an exact rational together with
  the IEEE special values positive infinity, negative infinity and NaN.
  Rounding and overflow of 64-bit floats are idealized away (exact rational
  arithmetic); the sign of zero is not modelled (the source never branches
  on it).  All special-value propagation rules (NaN absorption, infinity
  signs, division by zero, NaN comparisons being false, falsiness of 0 and
  NaN) follow the JavaScript semantics.
* JavaScript strings are Lean `String`s.  `toLowerCase`/`toUpperCase` are
  modelled on the ASCII letters (the only characters the source cares
  about), `trim` and the whitespace class of regexes are modelled on the
  common whitespace characters.
* The system clock (`new Date()`), the general `Date` string parser and
  `JSON.parse` are impure or host-defined; they enter the model as explicit
  parameters (`nowISO`, `jsDate`, `jsonParse`).
* Exceptions on the JSON transaction path are modelled with `Except Unit`;
  the surrounding `try`/`catch` converts any error into the empty list.
-/

namespace Schwab

attribute [local semireducible] Rat.add Rat.mul Rat.sub Rat.inv Rat.ofScientific

/-- Model of a JavaScript number: exact rational plus IEEE special values. -/
inductive JNum where
  | fin : ℚ → JNum
  | pinf : JNum
  | ninf : JNum
  | nan : JNum
deriving DecidableEq, Repr

/-- JavaScript addition on numbers. -/
def JNum.add : JNum → JNum → JNum
  | .nan, _ => .nan
  | _, .nan => .nan
  | .fin a, .fin b => .fin (a + b)
  | .pinf, .ninf => .nan
  | .ninf, .pinf => .nan
  | .pinf, _ => .pinf
  | .ninf, _ => .ninf
  | .fin _, .pinf => .pinf
  | .fin _, .ninf => .ninf

/-- JavaScript negation on numbers. -/
def JNum.neg : JNum → JNum
  | .nan => .nan
  | .pinf => .ninf
  | .ninf => .pinf
  | .fin a => .fin (-a)

/-- JavaScript subtraction on numbers. -/
def JNum.sub (a b : JNum) : JNum := a.add b.neg

/-- JavaScript multiplication on numbers. -/
def JNum.mul : JNum → JNum → JNum
  | .nan, _ => .nan
  | _, .nan => .nan
  | .fin a, .fin b => .fin (a * b)
  | .fin a, .pinf => if a = 0 then .nan else if 0 < a then .pinf else .ninf
  | .fin a, .ninf => if a = 0 then .nan else if 0 < a then .ninf else .pinf
  | .pinf, .fin b => if b = 0 then .nan else if 0 < b then .pinf else .ninf
  | .ninf, .fin b => if b = 0 then .nan else if 0 < b then .ninf else .pinf
  | .pinf, .pinf => .pinf
  | .pinf, .ninf => .ninf
  | .ninf, .pinf => .ninf
  | .ninf, .ninf => .pinf

/-- JavaScript division on numbers (division by zero gives a signed
infinity or NaN; the unmodelled negative zero never arises here). -/
def JNum.div : JNum → JNum → JNum
  | .nan, _ => .nan
  | _, .nan => .nan
  | .fin a, .fin b =>
      if b = 0 then (if a = 0 then .nan else if 0 < a then .pinf else .ninf)
      else .fin (a / b)
  | .fin _, .pinf => .fin 0
  | .fin _, .ninf => .fin 0
  | .pinf, .fin b => if 0 ≤ b then .pinf else .ninf
  | .ninf, .fin b => if 0 ≤ b then .ninf else .pinf
  | .pinf, .pinf => .nan
  | .pinf, .ninf => .nan
  | .ninf, .pinf => .nan
  | .ninf, .ninf => .nan

/-- JavaScript strict less-than on numbers (false whenever NaN is involved). -/
def JNum.lt : JNum → JNum → Bool
  | .nan, _ => false
  | _, .nan => false
  | .fin a, .fin b => a < b
  | .fin _, .pinf => true
  | .fin _, .ninf => false
  | .pinf, _ => false
  | .ninf, .fin _ => true
  | .ninf, .pinf => true
  | .ninf, .ninf => false

/-- JavaScript truthiness of a number: 0 and NaN are falsy. -/
def JNum.truthy : JNum → Bool
  | .nan => false
  | .fin a => a ≠ 0
  | .pinf => true
  | .ninf => true

/-- The JavaScript expression `a || b` on numbers. -/
def JNum.orElse (a b : JNum) : JNum := if a.truthy then a else b

/-- JavaScript `Math.abs`. -/
def JNum.abs : JNum → JNum
  | .nan => .nan
  | .pinf => .pinf
  | .ninf => .pinf
  | .fin a => .fin |a|

/-- JavaScript `isNaN` on a number. -/
def JNum.isNaN : JNum → Bool
  | .nan => true
  | _ => false

/-- Whitespace characters recognised by JavaScript `trim` and the `\s`
regex class (the characters that can occur in the inputs at hand). -/
def isJsSpace (c : Char) : Bool :=
  c = ' ' || c = '\t' || c = '\n' || c = '\r' ||
  c = '\x0b' || c = '\x0c' || c = '\u00A0' || c = '\u2028' || c = '\u2029' || c = '\uFEFF'

/-- JavaScript `String.prototype.trim`. -/
def jsTrim (s : String) : String :=
  String.mk (((s.toList.dropWhile isJsSpace).reverse.dropWhile isJsSpace).reverse)

/-- Does the first list start with the second one? -/
def beginsWith : List Char → List Char → Bool
  | _, [] => true
  | [], _ :: _ => false
  | a :: as, b :: bs => a = b && beginsWith as bs

/-- Substring test on character lists (JavaScript `String.prototype.includes`). -/
def hasSubL (needle : List Char) : List Char → Bool
  | [] => needle.isEmpty
  | c :: rest => beginsWith (c :: rest) needle || hasSubL needle rest

/-- JavaScript `hay.includes(needle)`. -/
def hasSub (hay needle : String) : Bool := hasSubL needle.toList hay.toList

/-- Does the first list end with the second one? -/
def endsWithL (l suf : List Char) : Bool := beginsWith l.reverse suf.reverse

/-- JavaScript `s.startsWith(p)`. -/
def jsStartsWith (s p : String) : Bool := beginsWith s.toList p.toList

/-- JavaScript `s.endsWith(p)`. -/
def jsEndsWith (s p : String) : Bool := endsWithL s.toList p.toList

/-- The lowercase/uppercase ASCII letter pairs. -/
def letterPairs : List (Char × Char) :=
  [('a', 'A'), ('b', 'B'), ('c', 'C'), ('d', 'D'), ('e', 'E'), ('f', 'F'),
   ('g', 'G'), ('h', 'H'), ('i', 'I'), ('j', 'J'), ('k', 'K'), ('l', 'L'),
   ('m', 'M'), ('n', 'N'), ('o', 'O'), ('p', 'P'), ('q', 'Q'), ('r', 'R'),
   ('s', 'S'), ('t', 'T'), ('u', 'U'), ('v', 'V'), ('w', 'W'), ('x', 'X'),
   ('y', 'Y'), ('z', 'Z')]

/-- Uppercase one character (ASCII model of JavaScript case mapping). -/
def asciiUpper (c : Char) : Char :=
  match letterPairs.find? (fun p => p.1 = c) with
  | some p => p.2
  | none => c

/-- Lowercase one character (ASCII model of JavaScript case mapping). -/
def asciiLower (c : Char) : Char :=
  match letterPairs.find? (fun p => p.2 = c) with
  | some p => p.1
  | none => c

/-- JavaScript `String.prototype.toUpperCase` (ASCII model). -/
def strUpper (s : String) : String := String.mk (s.toList.map asciiUpper)

/-- JavaScript `String.prototype.toLowerCase` (ASCII model). -/
def strLower (s : String) : String := String.mk (s.toList.map asciiLower)

/-- Numeric value of a list of decimal digit characters. -/
def digitsVal (l : List Char) : ℕ :=
  l.foldl (fun a c => 10 * a + (c.toNat - 48)) 0

/-- Exponent part of a JavaScript decimal literal: optional sign followed by
digits; an incomplete exponent contributes 0 (it is not consumed). -/
def expVal (t : List Char) : ℤ :=
  match t with
  | '+' :: d =>
      let ds := d.takeWhile Char.isDigit
      if ds.isEmpty then 0 else (digitsVal ds : ℤ)
  | '-' :: d =>
      let ds := d.takeWhile Char.isDigit
      if ds.isEmpty then 0 else -(digitsVal ds : ℤ)
  | d =>
      let ds := d.takeWhile Char.isDigit
      if ds.isEmpty then 0 else (digitsVal ds : ℤ)

/-- Longest valid unsigned decimal literal at the start of the character
list, in the sense of the ECMAScript StrUnsignedDecimalLiteral grammar used
by `parseFloat` (digits, optional decimal point, optional fraction digits,
optional exponent); `none` when no digit is found. -/
def parseDecCore (l : List Char) : Option ℚ :=
  let ip := l.takeWhile Char.isDigit
  let rest1 := l.drop ip.length
  let hasDot : Bool := rest1.head? = some '.'
  let afterDot := if hasDot then rest1.drop 1 else rest1
  let fp := if hasDot then afterDot.takeWhile Char.isDigit else []
  let rest2 := if hasDot then afterDot.drop fp.length else rest1
  if ip.isEmpty && fp.isEmpty then none
  else
    let mant : ℚ := (digitsVal ip : ℚ) + (digitsVal fp : ℚ) / (10 : ℚ) ^ fp.length
    let e : ℤ :=
      match rest2 with
      | 'e' :: t => expVal t
      | 'E' :: t => expVal t
      | _ => 0
    some (mant * (10 : ℚ) ^ e)

/-- JavaScript `parseFloat`: skip leading whitespace, optional sign, then
the longest valid decimal literal or the Infinity literal; NaN when nothing
parses.  Exact rational idealization of the IEEE result. -/
def parseFloat (s : String) : JNum :=
  let l := s.toList.dropWhile isJsSpace
  match l with
  | '+' :: t =>
      if beginsWith t ['I', 'n', 'f', 'i', 'n', 'i', 't', 'y'] then .pinf
      else (match parseDecCore t with
            | some q => .fin q
            | none => .nan)
  | '-' :: t =>
      if beginsWith t ['I', 'n', 'f', 'i', 'n', 'i', 't', 'y'] then .ninf
      else (match parseDecCore t with
            | some q => .fin (-q)
            | none => .nan)
  | t =>
      if beginsWith t ['I', 'n', 'f', 'i', 'n', 'i', 't', 'y'] then .pinf
      else (match parseDecCore t with
            | some q => .fin q
            | none => .nan)

/-- The first regex of `parseNumber`: remove every dollar sign, comma and
whitespace character (the class `[$,\s]` with the global flag). -/
def stripCurrency (s : String) : List Char :=
  s.toList.filter (fun c => !(c = '$' || c = ',' || isJsSpace c))

/-- The second regex of `parseNumber`: rewrite a fully parenthesized value
`(X)` with nonempty `X` as `-X` (the replacement of `^\((.+)\)$` by `-$1`). -/
def parenNeg (l : List Char) : List Char :=
  match l with
  | '(' :: rest =>
      if rest.length ≥ 2 && rest.getLast? = some ')' then '-' :: rest.dropLast
      else '(' :: rest
  | _ => l

/-- Model of `parseNumber` from the schwab-parser module: empty (falsy)
input gives 0, otherwise currency characters are stripped, accounting
parentheses become a leading minus, the result is handed to `parseFloat`,
and NaN falls back to 0. -/
def parseNumber (value : String) : JNum :=
  if value = "" then .fin 0
  else
    let cleaned := parenNeg (stripCurrency value)
    let num := parseFloat (String.mk cleaned)
    if num.isNaN then .fin 0 else num

/-- Split a character list at every occurrence of a separator character
(JavaScript `split` with a one-character separator: never empty, keeps
empty pieces). -/
def splitOnChar (sep : Char) : List Char → List (List Char)
  | [] => [[]]
  | c :: rest =>
      let r := splitOnChar sep rest
      if c = sep then [] :: r
      else
        match r with
        | [] => [[c]]
        | piece :: pieces => (c :: piece) :: pieces

/-- JavaScript `content.split("\n")` on strings. -/
def splitLines (s : String) : List String :=
  (splitOnChar '\n' s.toList).map String.mk

/-- One step of the character loop of `parseCSVLine`: a double quote
toggles the in-quotes state, a comma outside quotes closes the current
field, any other character is appended to the current field (kept in
reverse). -/
def csvStep (st : List String × List Char × Bool) (c : Char) :
    List String × List Char × Bool :=
  if c = '"' then (st.1, st.2.1, !st.2.2)
  else if c = ',' && !st.2.2 then (st.1 ++ [jsTrim (String.mk st.2.1.reverse)], [], st.2.2)
  else (st.1, c :: st.2.1, st.2.2)

/-- Model of `parseCSVLine`: split one line into trimmed fields, commas
inside double quotes do not split. -/
def parseCSVLine (line : String) : List String :=
  let st := line.toList.foldl csvStep ([], [], false)
  st.1 ++ [jsTrim (String.mk st.2.1.reverse)]

/-- Model of `findColumn`: the index of the first header containing the
first candidate name that occurs in some header; -1 when no candidate
matches. -/
def findColumn (headers : List String) : List String → Int
  | [] => -1
  | n :: rest =>
      match headers.findIdx? (fun h => hasSub h n) with
      | some i => (i : Int)
      | none => findColumn headers rest

/-- Strip at most one leading and one trailing double quote (the
replacement of `^"|"$` with the empty string). -/
def stripEdgeQuotes (l : List Char) : List Char :=
  let l1 := match l with
    | '"' :: t => t
    | _ => l
  if l1.getLast? = some '"' then l1.dropLast else l1

/-- Model of `getValue`: empty string for an absent or out-of-range column,
otherwise the field with outer quotes removed and trimmed. -/
def getValue (values : List String) (index : Int) : String :=
  if index < 0 || (values.length : Int) ≤ index then ""
  else jsTrim (String.mk (stripEdgeQuotes ((values.getD index.toNat "").toList)))

/-- Model of a normalized Holding record (src/lib/types.ts). -/
structure Holding where
  symbol : String
  name : String
  quantity : JNum
  costPerShare : JNum
  currentPrice : JNum
  marketValue : JNum
  gainLoss : JNum
  gainLossPercent : JNum
deriving DecidableEq, Repr

/-- The header-locating scan of the positions parser: first line whose
lowercase text contains "symbol" and either "quantity" or "shares";
defaults to line 0. -/
def positionsHeaderIdx (lines : List String) : ℕ :=
  match lines.findIdx? (fun ln =>
      hasSub (strLower ln) "symbol" &&
        (hasSub (strLower ln) "quantity" || hasSub (strLower ln) "shares")) with
  | some i => i
  | none => 0

/-- The column indices resolved by the positions parser. -/
structure PosCols where
  symbolCol : Int
  nameCol : Int
  quantityCol : Int
  priceCol : Int
  marketValueCol : Int
  costBasisCol : Int
  costPerShareCol : Int
  gainLossCol : Int
  gainLossPctCol : Int
deriving Repr

/-- Column resolution of the positions parser over the lowercased trimmed
header cells. -/
def positionsCols (headers : List String) : PosCols where
  symbolCol := findColumn headers ["symbol", "ticker"]
  nameCol := findColumn headers ["description", "name", "security"]
  quantityCol := findColumn headers ["quantity", "shares", "qty"]
  priceCol := findColumn headers ["price", "current price", "last price", "market price"]
  marketValueCol := findColumn headers ["market value", "value", "total value"]
  costBasisCol := findColumn headers ["cost basis", "cost", "total cost", "book cost"]
  costPerShareCol := findColumn headers ["cost/share", "avg cost", "average cost", "cost per share"]
  gainLossCol := findColumn headers ["gain/loss", "gain loss", "unrealized gain", "unrealized gain/loss"]
  gainLossPctCol := findColumn headers ["gain/loss %", "gain loss %", "% gain/loss", "unrealized gain %"]

/-- The tokenized fields of one (trimmed) data row. -/
def rowValues (rawLine : String) : List String := parseCSVLine (jsTrim rawLine)

/-- The symbol field of a positions data row. -/
def rowSymbol (cols : PosCols) (rawLine : String) : String :=
  getValue (rowValues rawLine) cols.symbolCol

/-- The parsed quantity of a positions data row (`const quantity = ...`). -/
def rowQuantity (cols : PosCols) (rawLine : String) : JNum :=
  parseNumber (getValue (rowValues rawLine) cols.quantityCol)

/-- The parsed current price of a positions data row. -/
def rowCurrentPrice (cols : PosCols) (rawLine : String) : JNum :=
  parseNumber (getValue (rowValues rawLine) cols.priceCol)

/-- The market value read from the source column, before fallback. -/
def rowMarketValueSrc (cols : PosCols) (rawLine : String) : JNum :=
  parseNumber (getValue (rowValues rawLine) cols.marketValueCol)

/-- The market value of a positions data row (`const marketValue = ...`):
source value, or quantity times price when the source value is falsy. -/
def rowMarketValue (cols : PosCols) (rawLine : String) : JNum :=
  (rowMarketValueSrc cols rawLine).orElse
    ((rowQuantity cols rawLine).mul (rowCurrentPrice cols rawLine))

/-- The parsed cost basis of a positions data row. -/
def rowCostBasis (cols : PosCols) (rawLine : String) : JNum :=
  parseNumber (getValue (rowValues rawLine) cols.costBasisCol)

/-- The cost per share read from the source column, before fallback. -/
def rowCostPerShareSrc (cols : PosCols) (rawLine : String) : JNum :=
  parseNumber (getValue (rowValues rawLine) cols.costPerShareCol)

/-- The cost per share of a positions data row (`const costPerShare = ...`). -/
def rowCostPerShare (cols : PosCols) (rawLine : String) : JNum :=
  ((rowCostPerShareSrc cols rawLine).orElse
    ((rowCostBasis cols rawLine).div (rowQuantity cols rawLine))).orElse (.fin 0)

/-- The gain/loss read from the source column, before fallback. -/
def rowGainLossSrc (cols : PosCols) (rawLine : String) : JNum :=
  parseNumber (getValue (rowValues rawLine) cols.gainLossCol)

/-- The gain/loss of a positions data row (`const gainLoss = ...`). -/
def rowGainLoss (cols : PosCols) (rawLine : String) : JNum :=
  (rowGainLossSrc cols rawLine).orElse
    ((rowMarketValue cols rawLine).sub (rowCostBasis cols rawLine))

/-- The gain/loss percent read from the source column, before fallback. -/
def rowGainLossPctSrc (cols : PosCols) (rawLine : String) : JNum :=
  parseNumber (getValue (rowValues rawLine) cols.gainLossPctCol)

/-- The gain/loss percent of a positions data row
(`const gainLossPercent = ...`). -/
def rowGainLossPercent (cols : PosCols) (rawLine : String) : JNum :=
  (rowGainLossPctSrc cols rawLine).orElse
    (if JNum.lt (.fin 0) (rowCostBasis cols rawLine) then
      (((rowMarketValue cols rawLine).sub (rowCostBasis cols rawLine)).div
        (rowCostBasis cols rawLine)).mul (.fin 100)
     else .fin 0)

/-- Processing of one data row of the positions parser: `none` when the
row is skipped, `some` holding when it is pushed.  Mirrors the body of the
row loop of `parseSchwabPositionsCSV`. -/
def positionsRow (cols : PosCols) (rawLine : String) : Option Holding :=
  if jsTrim rawLine = "" || beginsWith (jsTrim rawLine).toList ['"', '"'] ||
      hasSub (strLower (jsTrim rawLine)) "total" then
    none
  else if rowSymbol cols rawLine = "" || strLower (rowSymbol cols rawLine) = "cash" ||
      rowSymbol cols rawLine = "--" then
    none
  else if JNum.lt (.fin 0) (rowQuantity cols rawLine) then
    some { symbol := strUpper (rowSymbol cols rawLine)
           name := (if getValue (rowValues rawLine) cols.nameCol = "" then rowSymbol cols rawLine
                    else getValue (rowValues rawLine) cols.nameCol)
           quantity := rowQuantity cols rawLine
           costPerShare := rowCostPerShare cols rawLine
           currentPrice := rowCurrentPrice cols rawLine
           marketValue := rowMarketValue cols rawLine
           gainLoss := rowGainLoss cols rawLine
           gainLossPercent := rowGainLossPercent cols rawLine }
  else none

/-- The columns resolved from the located header row of a positions file
(header cells lowercased and trimmed). -/
def positionsFileCols (lines : List String) : PosCols :=
  positionsCols ((parseCSVLine (lines.getD (positionsHeaderIdx lines) "")).map
    (fun h => jsTrim (strLower h)))

/-- Model of `parseSchwabPositionsCSV` (src lines 8-69). -/
def parseSchwabPositionsCSV (csvContent : String) : List Holding :=
  if (splitLines (jsTrim csvContent)).length < 2 then []
  else
    ((splitLines (jsTrim csvContent)).drop
        (positionsHeaderIdx (splitLines (jsTrim csvContent)) + 1)).filterMap
      (positionsRow (positionsFileCols (splitLines (jsTrim csvContent))))

/-- Model of `parseSchwabPositions`: positions are always parsed as CSV. -/
def parseSchwabPositions (content : String) (_filename : Option String) : List Holding :=
  parseSchwabPositionsCSV content

/-- Does the string match the regex `^(\d{1,2})\/(\d{1,2})\/(\d{4})$`?
When it does, return the month, day and year pieces. -/
def slashParts (s : String) : Option (String × String × String) :=
  match (splitOnChar '/' s.toList).map String.mk with
  | [m, d, y] =>
      if 1 ≤ m.length && m.length ≤ 2 && m.toList.all Char.isDigit &&
         1 ≤ d.length && d.length ≤ 2 && d.toList.all Char.isDigit &&
         y.length = 4 && y.toList.all Char.isDigit then
        some (m, d, y)
      else none
  | _ => none

/-- Does the string match the regex `^\d{4}-\d{2}-\d{2}` (an ISO date at
the start, anything allowed after it)? -/
def isoStart (s : String) : Bool :=
  match s.toList with
  | c0 :: c1 :: c2 :: c3 :: c4 :: c5 :: c6 :: c7 :: c8 :: c9 :: _ =>
      c0.isDigit && c1.isDigit && c2.isDigit && c3.isDigit && c4 = '-' &&
      c5.isDigit && c6.isDigit && c7 = '-' && c8.isDigit && c9.isDigit
  | _ => false

/-- JavaScript `"0".padStart(2)` behaviour used on the month and day. -/
def padStart2 (s : String) : String :=
  if 2 ≤ s.length then s else String.mk (List.replicate (2 - s.length) '0') ++ s

/-- The JavaScript `iso.split("T")[0]` step that keeps the date part of an
ISO timestamp. -/
def splitDatePart (iso : String) : String :=
  ((splitOnChar 'T' iso.toList).map String.mk).headD ""

/-- Model of `parseSchwabDate` (src lines 247-270).  `nowISO` stands for
`new Date().toISOString()` at the call, and `jsDate` for the host date
parser: `jsDate s = some iso` when `new Date(s)` is a valid date with ISO
string `iso`, and `none` when it is an Invalid Date. -/
def parseSchwabDate (nowISO : String) (jsDate : String → Option String)
    (dateStr : String) : String :=
  if dateStr = "" then nowISO
  else
    match slashParts dateStr with
    | some (m, d, y) => y ++ "-" ++ padStart2 m ++ "-" ++ padStart2 d
    | none =>
        if isoStart dateStr then dateStr
        else
          match jsDate dateStr with
          | some iso => splitDatePart iso
          | none => splitDatePart nowISO

/-- The closed transaction action taxonomy. -/
inductive TxAction where
  | BUY
  | SELL
  | DIVIDEND
  | DEPOSIT
  | WITHDRAWAL
  | OTHER
deriving DecidableEq, Repr

/-- Model of a normalized Transaction record (src/lib/types.ts). -/
structure Transaction where
  date : String
  action : TxAction
  symbol : String
  description : String
  quantity : JNum
  price : JNum
  fees : JNum
  amount : JNum
deriving DecidableEq, Repr

/-- The action-classification keyword chain of the transactions CSV parser
(src lines 155-160), applied to the already lowercased action text. -/
def classifyActionCSV (actionRaw : String) : TxAction :=
  if hasSub actionRaw "buy" then .BUY
  else if hasSub actionRaw "sell" then .SELL
  else if hasSub actionRaw "dividend" || hasSub actionRaw "div" then .DIVIDEND
  else if hasSub actionRaw "deposit" || hasSub actionRaw "transfer in" then .DEPOSIT
  else if hasSub actionRaw "withdraw" || hasSub actionRaw "transfer out" then .WITHDRAWAL
  else .OTHER

/-- The action-classification keyword chain of the transactions JSON parser
(src lines 87-93): the CSV chain plus a final reinvest-to-DIVIDEND rule. -/
def classifyActionJSON (actionRaw : String) : TxAction :=
  if hasSub actionRaw "buy" then .BUY
  else if hasSub actionRaw "sell" then .SELL
  else if hasSub actionRaw "dividend" || hasSub actionRaw "div" then .DIVIDEND
  else if hasSub actionRaw "deposit" || hasSub actionRaw "transfer in" then .DEPOSIT
  else if hasSub actionRaw "withdraw" || hasSub actionRaw "transfer out" then .WITHDRAWAL
  else if hasSub actionRaw "reinvest" then .DIVIDEND
  else .OTHER

/-- The header-locating scan of the transactions CSV parser: first line
whose lowercase text contains "date" and "action"; defaults to line 0. -/
def txHeaderIdx (lines : List String) : ℕ :=
  match lines.findIdx? (fun ln =>
      hasSub (strLower ln) "date" && hasSub (strLower ln) "action") with
  | some i => i
  | none => 0

/-- The column indices resolved by the transactions CSV parser. -/
structure TxCols where
  dateCol : Int
  actionCol : Int
  symbolCol : Int
  descCol : Int
  quantityCol : Int
  priceCol : Int
  feesCol : Int
  amountCol : Int
deriving Repr

/-- Column resolution of the transactions CSV parser over the lowercased
trimmed header cells. -/
def txCols (headers : List String) : TxCols where
  dateCol := findColumn headers ["date", "trade date"]
  actionCol := findColumn headers ["action", "type", "transaction type"]
  symbolCol := findColumn headers ["symbol", "ticker"]
  descCol := findColumn headers ["description", "name", "security"]
  quantityCol := findColumn headers ["quantity", "shares", "qty"]
  priceCol := findColumn headers ["price"]
  feesCol := findColumn headers ["fees & comm", "fees", "commission", "fees & commission"]
  amountCol := findColumn headers ["amount", "total", "net amount"]

/-- Processing of one data row of the transactions CSV parser: `none` when
the row is skipped (blank, footer marker, or empty date), `some`
transaction when it is pushed.  Mirrors the row loop of
`parseSchwabTransactionsCSV` (src lines 144-172). -/
def txRow (nowISO : String) (jsDate : String → Option String) (cols : TxCols)
    (rawLine : String) : Option Transaction :=
  if jsTrim rawLine = "" || beginsWith (jsTrim rawLine).toList ['"', '"'] then none
  else if getValue (rowValues rawLine) cols.dateCol = "" then none
  else
    some { date := parseSchwabDate nowISO jsDate (getValue (rowValues rawLine) cols.dateCol)
           action := classifyActionCSV (strLower (getValue (rowValues rawLine) cols.actionCol))
           symbol := (if strUpper (getValue (rowValues rawLine) cols.symbolCol) = "" then "--"
                      else strUpper (getValue (rowValues rawLine) cols.symbolCol))
           description := getValue (rowValues rawLine) cols.descCol
           quantity := (parseNumber (getValue (rowValues rawLine) cols.quantityCol)).abs
           price := parseNumber (getValue (rowValues rawLine) cols.priceCol)
           fees := parseNumber (getValue (rowValues rawLine) cols.feesCol)
           amount := parseNumber (getValue (rowValues rawLine) cols.amountCol) }

/-- The columns resolved from the located header row of a transactions CSV
file (header cells lowercased and trimmed). -/
def txFileCols (lines : List String) : TxCols :=
  txCols ((parseCSVLine (lines.getD (txHeaderIdx lines) "")).map
    (fun h => jsTrim (strLower h)))

/-- Model of `parseSchwabTransactionsCSV` (src lines 118-175). -/
def parseSchwabTransactionsCSV (nowISO : String) (jsDate : String → Option String)
    (csvContent : String) : List Transaction :=
  if (splitLines (jsTrim csvContent)).length < 2 then []
  else
    ((splitLines (jsTrim csvContent)).drop
        (txHeaderIdx (splitLines (jsTrim csvContent)) + 1)).filterMap
      (txRow nowISO jsDate (txFileCols (splitLines (jsTrim csvContent))))

/-- A JSON value as produced by a successful `JSON.parse`. -/
inductive JValue where
  | jnull : JValue
  | jbool : Bool → JValue
  | jnum : ℚ → JValue
  | jstr : String → JValue
  | jarr : List JValue → JValue
  | jobj : List (String × JValue) → JValue

/-- JavaScript truthiness of a field-access result (`none` stands for
`undefined`). -/
def jTruthy : Option JValue → Bool
  | none => false
  | some .jnull => false
  | some (.jbool b) => b
  | some (.jnum q) => q ≠ 0
  | some (.jstr s) => s ≠ ""
  | some (.jarr _) => true
  | some (.jobj _) => true

/-- JavaScript property access `v[k]`: throws on `null`, yields the field
of an object, `undefined` otherwise. -/
def jGet (v : JValue) (k : String) : Except Unit (Option JValue) :=
  match v with
  | .jnull => .error ()
  | .jobj fields => .ok ((fields.find? (fun p => p.1 = k)).map Prod.snd)
  | _ => .ok none

/-- The JavaScript expression `v || d` on a field-access result. -/
def jOrDefault (v : Option JValue) (d : JValue) : JValue :=
  match v with
  | some x => if jTruthy (some x) then x else d
  | none => d

/-- Calling a string method (`toLowerCase`, `toUpperCase`, `match`,
`replace`) on a value: succeeds only on strings, a TypeError otherwise. -/
def jAsString : JValue → Except Unit String
  | .jstr s => .ok s
  | _ => .error ()

/-- The call `parseNumber(v)` with a JavaScript value: falsy arguments hit
the `!value` early return, truthy strings are parsed, truthy non-strings
throw inside `value.replace`. -/
def jParseNumber (v : JValue) : Except Unit JNum :=
  if jTruthy (some v) = false then .ok (.fin 0)
  else
    match v with
    | .jstr s => .ok (parseNumber s)
    | _ => .error ()

/-- The call `parseSchwabDate(v)` with a JavaScript value: falsy arguments
hit the `!dateStr` early return (full current ISO timestamp), truthy
strings are parsed, truthy non-strings throw inside `dateStr.match`. -/
def jParseSchwabDate (nowISO : String) (jsDate : String → Option String)
    (v : JValue) : Except Unit String :=
  if jTruthy (some v) = false then .ok nowISO
  else
    match v with
    | .jstr s => .ok (parseSchwabDate nowISO jsDate s)
    | _ => .error ()

/-- Iteration `for (const tx of v)`: arrays yield their elements, strings
their characters, anything else throws. -/
def jIterate : JValue → Except Unit (List JValue)
  | .jarr l => .ok l
  | .jstr s => .ok (s.toList.map (fun c => .jstr (String.mk [c])))
  | _ => .error ()

/-- Processing of one raw transaction object on the JSON path (the loop
body of `parseSchwabTransactionsJSON`, src lines 83-105). -/
def jsonTx (nowISO : String) (jsDate : String → Option String) (tx : JValue) :
    Except Unit Transaction := do
  let actionField ← jGet tx "Action"
  let actionRaw ← jAsString (jOrDefault actionField (.jstr ""))
  let action := classifyActionJSON (strLower actionRaw)
  let dateField ← jGet tx "Date"
  let date ← jParseSchwabDate nowISO jsDate (jOrDefault dateField (.jstr ""))
  let symField ← jGet tx "Symbol"
  let symS ← jAsString (jOrDefault symField (.jstr "--"))
  let descField ← jGet tx "Description"
  let desc ← jAsString (jOrDefault descField (.jstr ""))
  let qtyField ← jGet tx "Quantity"
  let qty ← jParseNumber (jOrDefault qtyField (.jstr "0"))
  let priceField ← jGet tx "Price"
  let price ← jParseNumber (jOrDefault priceField (.jstr "0"))
  let feesField ← jGet tx "Fees & Comm"
  let feesAlt ← jGet tx "Fees"
  let fees ← jParseNumber (jOrDefault feesField (jOrDefault feesAlt (.jstr "0")))
  let amtField ← jGet tx "Amount"
  let amt ← jParseNumber (jOrDefault amtField (.jstr "0"))
  .ok { date := date
        action := action
        symbol := strUpper symS
        description := desc
        quantity := qty.abs
        price := price
        fees := fees
        amount := amt }

/-- Model of `parseSchwabTransactionsJSON` (src lines 75-112).  `jsonParse`
models `JSON.parse`: `none` for structurally invalid JSON.  The
surrounding try/catch turns every thrown error into the empty list. -/
def parseSchwabTransactionsJSON (nowISO : String) (jsDate : String → Option String)
    (jsonParse : String → Option JValue) (jsonContent : String) : List Transaction :=
  match jsonParse jsonContent with
  | none => []
  | some data =>
      let run : Except Unit (List Transaction) := do
        let bt ← jGet data "BrokerageTransactions"
        let txs ← jGet data "transactions"
        let rawTxs ← jIterate (jOrDefault bt (jOrDefault txs (.jarr [])))
        rawTxs.mapM (jsonTx nowISO jsDate)
      match run with
      | .error _ => []
      | .ok l => l

/-- Model of `parseSchwabTransactions` (src lines 276-291): format
auto-detection between the JSON and CSV paths. -/
def parseSchwabTransactions (nowISO : String) (jsDate : String → Option String)
    (jsonParse : String → Option JValue) (content : String)
    (filename : Option String) : List Transaction :=
  if jsStartsWith (jsTrim content) "\x7b" || jsStartsWith (jsTrim content) "[" then
    parseSchwabTransactionsJSON nowISO jsDate jsonParse content
  else if (match filename with
           | some f => jsEndsWith (strLower f) ".json"
           | none => false) then
    parseSchwabTransactionsJSON nowISO jsDate jsonParse content
  else
    parseSchwabTransactionsCSV nowISO jsDate content

/-- Model of the PortfolioData record (src/lib/types.ts). -/
structure PortfolioData where
  holdings : List Holding
  transactions : List Transaction
  totalValue : JNum
  totalCost : JNum
  totalGainLoss : JNum
  totalGainLossPercent : JNum
  cashBalance : JNum
  lastUpdated : String
deriving DecidableEq, Repr

/-- Model of `calculatePortfolioTotals` (src lines 180-199).  `nowISO`
stands for `new Date().toISOString()` read from the system clock at the
call. -/
def calculatePortfolioTotals (nowISO : String) (holdings : List Holding)
    (transactions : List Transaction) : PortfolioData :=
  let totalValue := holdings.foldl (fun sum h => sum.add h.marketValue) (.fin 0)
  let totalCost := holdings.foldl (fun sum h => sum.add (h.costPerShare.mul h.quantity)) (.fin 0)
  let totalGainLoss := totalValue.sub totalCost
  let totalGainLossPercent :=
    if JNum.lt (.fin 0) totalCost then (totalGainLoss.div totalCost).mul (.fin 100)
    else .fin 0
  { holdings := holdings
    transactions := transactions
    totalValue := totalValue
    totalCost := totalCost
    totalGainLoss := totalGainLoss
    totalGainLossPercent := totalGainLossPercent
    cashBalance := .fin 0
    lastUpdated := nowISO }

/-- The rows stored for one user by the persistence layer: the portfolio
record (totals), its holdings and its transactions. -/
structure StoredPortfolio where
  totalValue : JNum
  totalCost : JNum
  totalGainLoss : JNum
  totalGainLossPercent : JNum
  cashBalance : JNum
  lastUpdated : String
  holdings : List Holding
  transactions : List Transaction
deriving DecidableEq, Repr

/-- The stored state of the persistence layer, per user id. -/
def Store : Type := String → Option StoredPortfolio

/-- The transaction rows already stored for the user (their number is what
`tx.transaction.count` reads). -/
def storedTxs (store : Store) (userId : String) : List Transaction :=
  match store userId with
  | some p => p.transactions
  | none => []

/-- Model of `savePortfolioData` (src/src/lib/storage.ts lines 8-78) as
the state transformation of its single database transaction: upsert the
portfolio totals, delete and recreate all holdings from `data.holdings`,
and append the transactions of `data.transactions` beyond the stored
count.  The `prisma.$transaction` wrapper makes the whole update one
atomic step, which the model renders as a single function application. -/
def savePortfolioData (userId : String) (data : PortfolioData) (store : Store) : Store :=
  fun uid =>
    if uid = userId then
      some { totalValue := data.totalValue
             totalCost := data.totalCost
             totalGainLoss := data.totalGainLoss
             totalGainLossPercent := data.totalGainLossPercent
             cashBalance := data.cashBalance
             lastUpdated := data.lastUpdated
             holdings := data.holdings
             transactions :=
               (if 0 < data.transactions.length then
                 (if (storedTxs store userId).length < data.transactions.length then
                   storedTxs store userId ++
                     data.transactions.drop (storedTxs store userId).length
                  else storedTxs store userId)
                else storedTxs store userId) }
    else store uid

/-- Summation of the market values of a holdings collection, as written in
the specification (`totalValue = Σ marketValue`). -/
def sumMarketValue (hs : List Holding) : JNum :=
  (hs.map (fun h => h.marketValue)).foldr JNum.add (.fin 0)

/-- Summation of `costPerShare × quantity` over a holdings collection, as
written in the specification. -/
def sumCost (hs : List Holding) : JNum :=
  (hs.map (fun h => h.costPerShare.mul h.quantity)).foldr JNum.add (.fin 0)

/-- The one-row positions CSV of the specification example. -/
def applePositionsCSV : String :=
  "Symbol,Description,Quantity,Price,Market Value,Cost Basis\nAAPL,Apple Inc.,10,150.00,1500.00,1000.00"

/-- The Holding the specification expects for `applePositionsCSV`. -/
def appleHolding : Holding where
  symbol := "AAPL"
  name := "Apple Inc."
  quantity := .fin 10
  costPerShare := .fin 100
  currentPrice := .fin 150
  marketValue := .fin 1500
  gainLoss := .fin 500
  gainLossPercent := .fin 50

/-- A concrete portfolio snapshot used in witnesses. -/
def demoData : PortfolioData where
  holdings := [appleHolding]
  transactions := []
  totalValue := .fin 1500
  totalCost := .fin 1000
  totalGainLoss := .fin 500
  totalGainLossPercent := .fin 50
  cashBalance := .fin 0
  lastUpdated := "2026-02-03T10:11:12.000Z"

/-- The store with no saved portfolio for any user. -/
def emptyStore : Store := fun _ => none

theorem JNum.add_fin_zero (a : JNum) : a.add (.fin 0) = a := by
  cases a <;> simp [JNum.add]

theorem JNum.fin_zero_add (a : JNum) : (JNum.fin 0).add a = a := by
  cases a <;> simp [JNum.add]

theorem JNum.addAssoc (a b c : JNum) : (a.add b).add c = a.add (b.add c) := by
  cases a <;> cases b <;> cases c <;> simp [JNum.add, add_assoc]

theorem foldl_add_eq (f : Holding → JNum) (l : List Holding) (a : JNum) :
    l.foldl (fun s h => s.add (f h)) a = a.add ((l.map f).foldr JNum.add (.fin 0)) := by
  induction l generalizing a with
  | nil => simp [JNum.add_fin_zero]
  | cons x xs ih => simp [ih, JNum.addAssoc]

theorem JNum.ne_nan_of_not_isNaN (a : JNum) (h : a.isNaN = false) : a ≠ .nan := by
  cases a <;> simp_all [JNum.isNaN]

theorem asciiUpper_idem (c : Char) : asciiUpper (asciiUpper c) = asciiUpper c := by
  unfold asciiUpper
  cases hfind : letterPairs.find? (fun p => p.1 = c) with
  | none => simp [hfind]
  | some p =>
    have hmem : p ∈ letterPairs := List.mem_of_find?_eq_some hfind
    simp only [letterPairs, List.mem_cons, List.not_mem_nil, or_false] at hmem
    rcases hmem with rfl | rfl | rfl | rfl | rfl | rfl | rfl | rfl | rfl | rfl | rfl | rfl |
      rfl | rfl | rfl | rfl | rfl | rfl | rfl | rfl | rfl | rfl | rfl | rfl | rfl | rfl <;>
      rfl

theorem map_asciiUpper_idem (l : List Char) :
    (l.map asciiUpper).map asciiUpper = l.map asciiUpper := by
  induction l with
  | nil => rfl
  | cons x xs ih => simp [asciiUpper_idem, ih]

theorem strUpper_idem (s : String) : strUpper (strUpper s) = strUpper s :=
  congrArg String.mk (map_asciiUpper_idem s.toList)

theorem strUpper_ne_empty (s : String) (h : s ≠ "") : strUpper s ≠ "" := by
  cases s with
  | mk data =>
    cases data with
    | nil => exact absurd rfl h
    | cons x xs =>
      intro hc
      exact List.noConfusion (congrArg String.data hc)

theorem positionsRow_some (cols : PosCols) (line : String) (h : Holding)
    (heq : positionsRow cols line = some h) :
    JNum.lt (.fin 0) h.quantity = true ∧
    rowSymbol cols line ≠ "" ∧
    h.symbol = strUpper (rowSymbol cols line) ∧
    h.quantity = rowQuantity cols line ∧
    h.currentPrice = rowCurrentPrice cols line ∧
    h.marketValue = rowMarketValue cols line ∧
    h.costPerShare = rowCostPerShare cols line ∧
    h.gainLoss = rowGainLoss cols line ∧
    h.gainLossPercent = rowGainLossPercent cols line := by
  unfold positionsRow at heq
  split at heq
  · exact absurd heq (by simp)
  · split at heq
    · exact absurd heq (by simp)
    · next hsym =>
      split at heq
      · next hqty =>
        have hh := (Option.some.injEq _ _).mp heq
        subst hh
        refine ⟨hqty, ?_, rfl, rfl, rfl, rfl, rfl, rfl, rfl⟩
        intro hc
        apply hsym
        simp [hc]
      · exact absurd heq (by simp)

/-- C1: for every holdings collection and transactions collection,
`calculatePortfolioTotals` returns totalValue equal to the sum of the
market values, totalCost equal to the sum of costPerShare times quantity,
totalGainLoss equal to their difference, and totalGainLossPercent equal to
totalGainLoss over totalCost times 100 when totalCost is positive and 0
otherwise; for the empty collection all four totals are 0, and the
snapshot's totalValue equals the sum of the market values exactly. -/
theorem C1_totals (nowISO : String) (hs : List Holding) (ts : List Transaction) :
    (calculatePortfolioTotals nowISO hs ts).totalValue = sumMarketValue hs ∧
    (calculatePortfolioTotals nowISO hs ts).totalCost = sumCost hs ∧
    (calculatePortfolioTotals nowISO hs ts).totalGainLoss =
      (sumMarketValue hs).sub (sumCost hs) ∧
    (calculatePortfolioTotals nowISO hs ts).totalGainLossPercent =
      (if JNum.lt (.fin 0) (sumCost hs) then
        (((sumMarketValue hs).sub (sumCost hs)).div (sumCost hs)).mul (.fin 100)
       else .fin 0) ∧
    (hs = [] →
      (calculatePortfolioTotals nowISO hs ts).totalValue = .fin 0 ∧
      (calculatePortfolioTotals nowISO hs ts).totalCost = .fin 0 ∧
      (calculatePortfolioTotals nowISO hs ts).totalGainLoss = .fin 0 ∧
      (calculatePortfolioTotals nowISO hs ts).totalGainLossPercent = .fin 0) := by
  have hv : (calculatePortfolioTotals nowISO hs ts).totalValue = sumMarketValue hs := by
    simp [calculatePortfolioTotals, sumMarketValue, foldl_add_eq, JNum.fin_zero_add]
  have hc : (calculatePortfolioTotals nowISO hs ts).totalCost = sumCost hs := by
    simp [calculatePortfolioTotals, sumCost, foldl_add_eq, JNum.fin_zero_add]
  refine ⟨hv, hc, ?_, ?_, ?_⟩
  · simp [calculatePortfolioTotals] at hv hc ⊢
    rw [hv, hc]
  · simp [calculatePortfolioTotals] at hv hc ⊢
    rw [hv, hc]
  · rintro rfl
    refine ⟨hv, hc, ?_, ?_⟩ <;> simp [calculatePortfolioTotals, sumMarketValue, sumCost] <;>
      decide

/-- C1 witness: the totals theorem applied to the empty holdings collection
gives the four zero totals. -/
theorem C1_totals_witness :
    (calculatePortfolioTotals "2026-02-03T00:00:00.000Z" [] []).totalValue = .fin 0 ∧
    (calculatePortfolioTotals "2026-02-03T00:00:00.000Z" [] []).totalGainLossPercent = .fin 0 :=
  ⟨(C1_totals "2026-02-03T00:00:00.000Z" [] []).2.2.2.2 rfl |>.1,
   (C1_totals "2026-02-03T00:00:00.000Z" [] []).2.2.2.2 rfl |>.2.2.2⟩

/-- C2 counterexample: `parseSchwabDate` does not map the ISO timestamp
"2026-01-26T00:00:00Z" to "2026-01-26" as the claim states: an input whose
first ten characters already match YYYY-MM-DD is returned whole, time
suffix included. -/
theorem C2_counterexample :
    parseSchwabDate "2026-02-03T10:11:12.000Z" (fun _ => none) "2026-01-26T00:00:00Z" =
      "2026-01-26T00:00:00Z" ∧
    "2026-01-26T00:00:00Z" ≠ "2026-01-26" := by
  constructor
  · decide
  · decide

/-- C2 amended: `parseSchwabDate` zero-pads and reorders MM/DD/YYYY input;
it passes a string with a YYYY-MM-DD prefix through unchanged (time suffix
kept, not cut to the date); the empty string yields the full current ISO
timestamp (not just the current date); any other string is given to the
host date parser and cut to YYYY-MM-DD, and falls back to the current date
in YYYY-MM-DD form when that parse fails. -/
theorem C2_amended (nowISO : String) (jsDate : String → Option String) :
    parseSchwabDate nowISO jsDate "01/26/2026" = "2026-01-26" ∧
    parseSchwabDate nowISO jsDate "" = nowISO ∧
    (∀ s, s ≠ "" → slashParts s = none → isoStart s = true →
      parseSchwabDate nowISO jsDate s = s) ∧
    (∀ s iso, s ≠ "" → slashParts s = none → isoStart s = false → jsDate s = some iso →
      parseSchwabDate nowISO jsDate s = splitDatePart iso) ∧
    (∀ s, s ≠ "" → slashParts s = none → isoStart s = false → jsDate s = none →
      parseSchwabDate nowISO jsDate s = splitDatePart nowISO) ∧
    (∀ m d y, slashParts (m ++ "/" ++ d ++ "/" ++ y) = some (m, d, y) →
      parseSchwabDate nowISO jsDate (m ++ "/" ++ d ++ "/" ++ y) =
        y ++ "-" ++ padStart2 m ++ "-" ++ padStart2 d) := by
  refine ⟨?_, ?_, ?_, ?_, ?_, ?_⟩
  · have h : slashParts "01/26/2026" = some ("01", "26", "2026") := by decide
    simp [parseSchwabDate, h]
    decide
  · simp [parseSchwabDate]
  · intro s hs hslash hiso
    simp [parseSchwabDate, hs, hslash, hiso]
  · intro s iso hs hslash hiso hjs
    simp [parseSchwabDate, hs, hslash, hiso, hjs]
  · intro s hs hslash hiso hjs
    simp [parseSchwabDate, hs, hslash, hiso, hjs]
  · intro m d y hmatch
    have hne : m ++ "/" ++ d ++ "/" ++ y ≠ "" := by
      intro hcontra
      rw [hcontra, show slashParts "" = none from by decide] at hmatch
      exact Option.noConfusion hmatch
    simp [parseSchwabDate, hne, hmatch]

/-- C2 witness: the amended date contract applied to an unparseable string
(current-date fallback) and to an ISO timestamp (passed through whole). -/
theorem C2_amended_witness :
    parseSchwabDate "2026-02-03T10:11:12.000Z" (fun _ => none) "garbage" =
      splitDatePart "2026-02-03T10:11:12.000Z" ∧
    parseSchwabDate "2026-02-03T10:11:12.000Z" (fun _ => none) "2026-01-26T00:00:00Z" =
      "2026-01-26T00:00:00Z" :=
  ⟨(C2_amended "2026-02-03T10:11:12.000Z" (fun _ => none)).2.2.2.2.1 "garbage"
      (by decide) (by decide) (by decide) rfl,
   (C2_amended "2026-02-03T10:11:12.000Z" (fun _ => none)).2.2.1 "2026-01-26T00:00:00Z"
      (by decide) (by decide) (by decide)⟩

/-- C3: `parseNumber` strips currency characters, turns a parenthesized
value into a negative, parses the rest as a float, returns 0 whenever that
parse gives NaN, and never produces NaN; in particular the four
specification examples hold. -/
theorem C3_parseNumber :
    parseNumber "$1,234.56" = JNum.fin (123456/100) ∧
    parseNumber "(500)" = JNum.fin (-500) ∧
    parseNumber "" = JNum.fin 0 ∧
    parseNumber "abc" = JNum.fin 0 ∧
    (∀ s, (parseFloat (String.mk (parenNeg (stripCurrency s)))).isNaN = true →
      parseNumber s = JNum.fin 0) ∧
    (∀ s, parseNumber s ≠ JNum.nan) := by
  refine ⟨by decide, by decide, by decide, by decide, ?_, ?_⟩
  · intro s h
    by_cases hs : s = ""
    · simp [parseNumber, hs]
    · simp [parseNumber, hs, h]
  · intro s
    by_cases hs : s = ""
    · simp [parseNumber, hs]
    · simp only [parseNumber, hs, if_false]
      split
      · simp
      · next hn =>
        exact JNum.ne_nan_of_not_isNaN _ (by simpa using hn)

/-- C3 witness: the NaN-to-zero clause at an alphabetic input and the
no-NaN clause at a numeric input. -/
theorem C3_witness :
    parseNumber "xyz" = JNum.fin 0 ∧ parseNumber "7" ≠ JNum.nan :=
  ⟨C3_parseNumber.2.2.2.2.1 "xyz" (by decide), C3_parseNumber.2.2.2.2.2 "7"⟩

/-- C4: the positions parser skips every data row whose text contains
"total" case-insensitively, every row with an empty, "cash" (any case) or
"--" symbol, and every row whose parsed quantity is not strictly positive;
consequently every Holding it outputs has a positive quantity and a
non-empty uppercase symbol. -/
theorem C4_positions_exclusions :
    (∀ cols line, hasSub (strLower (jsTrim line)) "total" = true →
      positionsRow cols line = none) ∧
    (∀ cols line,
      rowSymbol cols line = "" ∨ strLower (rowSymbol cols line) = "cash" ∨
        rowSymbol cols line = "--" →
      positionsRow cols line = none) ∧
    (∀ cols line, JNum.lt (.fin 0) (rowQuantity cols line) = false →
      positionsRow cols line = none) ∧
    (∀ csv h, h ∈ parseSchwabPositionsCSV csv →
      JNum.lt (.fin 0) h.quantity = true ∧ h.symbol ≠ "" ∧ strUpper h.symbol = h.symbol) := by
  refine ⟨?_, ?_, ?_, ?_⟩
  · intro cols line h
    simp [positionsRow, h]
  · intro cols line h
    unfold positionsRow
    split
    · rfl
    · split
      · rfl
      · next hsym => exact absurd (by rcases h with h | h | h <;> simp [h]) hsym
  · intro cols line h
    unfold positionsRow
    split
    · rfl
    · split
      · rfl
      · simp [h]
  · intro csv h hmem
    unfold parseSchwabPositionsCSV at hmem
    split at hmem
    · exact absurd hmem (List.not_mem_nil h)
    · obtain ⟨line, hline, hrow⟩ := List.mem_filterMap.mp hmem
      obtain ⟨hq, hsne, hsym, -, -, -, -, -, -⟩ := positionsRow_some _ _ _ hrow
      refine ⟨hq, ?_, ?_⟩
      · rw [hsym]
        exact strUpper_ne_empty _ hsne
      · rw [hsym]
        exact strUpper_idem _

/-- C4 witness: a summary row containing "total" is skipped, and the
Holding produced from the one-row example file has positive quantity and a
non-empty uppercase symbol. -/
theorem C4_witness :
    positionsRow (positionsCols []) "Account Total,100" = none ∧
    (JNum.lt (.fin 0) appleHolding.quantity = true ∧ appleHolding.symbol ≠ "" ∧
      strUpper appleHolding.symbol = appleHolding.symbol) :=
  ⟨C4_positions_exclusions.1 (positionsCols []) "Account Total,100" (by decide),
   C4_positions_exclusions.2.2.2 applePositionsCSV appleHolding (by
    rw [show parseSchwabPositionsCSV applePositionsCSV = [appleHolding] from by decide]
    exact List.mem_singleton.mpr rfl)⟩

/-- C5: in the positions parser a source value is preferred and the derived
value is used exactly when the source value is falsy (absent or zero):
marketValue falls back to quantity times price, costPerShare to cost basis
over quantity and then to 0, gainLoss to marketValue minus cost basis, and
gainLossPercent to the percent formula guarded by cost basis positivity;
the specification example row yields the expected Holding. -/
theorem C5_positions_fallbacks :
    parseSchwabPositionsCSV applePositionsCSV = [appleHolding] ∧
    (∀ cols line h, positionsRow cols line = some h →
      (h.marketValue =
        (if (rowMarketValueSrc cols line).truthy then rowMarketValueSrc cols line
         else (rowQuantity cols line).mul (rowCurrentPrice cols line))) ∧
      (h.costPerShare =
        (if (rowCostPerShareSrc cols line).truthy then rowCostPerShareSrc cols line
         else if ((rowCostBasis cols line).div (rowQuantity cols line)).truthy then
           (rowCostBasis cols line).div (rowQuantity cols line)
         else .fin 0)) ∧
      (h.gainLoss =
        (if (rowGainLossSrc cols line).truthy then rowGainLossSrc cols line
         else (rowMarketValue cols line).sub (rowCostBasis cols line))) ∧
      (h.gainLossPercent =
        (if (rowGainLossPctSrc cols line).truthy then rowGainLossPctSrc cols line
         else if JNum.lt (.fin 0) (rowCostBasis cols line) then
           (((rowMarketValue cols line).sub (rowCostBasis cols line)).div
             (rowCostBasis cols line)).mul (.fin 100)
         else .fin 0))) := by
  constructor
  · decide
  · intro cols line h heq
    obtain ⟨-, -, -, -, -, hmv, hcps, hgl, hglp⟩ := positionsRow_some _ _ _ heq
    refine ⟨?_, ?_, ?_, ?_⟩
    · rw [hmv]
      simp [rowMarketValue, JNum.orElse]
    · rw [hcps]
      cases ha : (rowCostPerShareSrc cols line).truthy <;>
        cases hb : ((rowCostBasis cols line).div (rowQuantity cols line)).truthy <;>
        simp [rowCostPerShare, JNum.orElse, ha, hb]
    · rw [hgl]
      simp [rowGainLoss, JNum.orElse]
    · rw [hglp]
      simp [rowGainLossPercent, JNum.orElse]

/-- C5 witness: the fallback characterisation applied to the example data
row, whose source market value is present and used. -/
theorem C5_witness :
    appleHolding.marketValue =
      (if (rowMarketValueSrc (positionsFileCols (splitLines (jsTrim applePositionsCSV)))
            "AAPL,Apple Inc.,10,150.00,1500.00,1000.00").truthy then
        rowMarketValueSrc (positionsFileCols (splitLines (jsTrim applePositionsCSV)))
          "AAPL,Apple Inc.,10,150.00,1500.00,1000.00"
       else
        (rowQuantity (positionsFileCols (splitLines (jsTrim applePositionsCSV)))
            "AAPL,Apple Inc.,10,150.00,1500.00,1000.00").mul
          (rowCurrentPrice (positionsFileCols (splitLines (jsTrim applePositionsCSV)))
            "AAPL,Apple Inc.,10,150.00,1500.00,1000.00")) :=
  (C5_positions_fallbacks.2 (positionsFileCols (splitLines (jsTrim applePositionsCSV)))
    "AAPL,Apple Inc.,10,150.00,1500.00,1000.00" appleHolding (by decide)).1

/-- C6: transaction actions are classified by case-insensitive substring
matching against the fixed ordered keyword list, first match wins, no
match giving OTHER, with reinvest-to-DIVIDEND only on the JSON path; the
four specification examples hold and the two paths agree on every action
text without "reinvest". -/
theorem C6_action_classification :
    classifyActionCSV (strLower "Buy to open") = .BUY ∧
    classifyActionCSV (strLower "Qualified Dividend") = .DIVIDEND ∧
    classifyActionCSV (strLower "Wire Transfer") = .OTHER ∧
    classifyActionJSON (strLower "Reinvest Shares") = .DIVIDEND ∧
    classifyActionCSV (strLower "Reinvest Shares") = .OTHER ∧
    (∀ a, hasSub a "buy" = true →
      classifyActionCSV a = .BUY ∧ classifyActionJSON a = .BUY) ∧
    (∀ a, hasSub a "buy" = false → hasSub a "sell" = false → hasSub a "dividend" = false →
      hasSub a "div" = false → hasSub a "deposit" = false → hasSub a "transfer in" = false →
      hasSub a "withdraw" = false → hasSub a "transfer out" = false →
      classifyActionCSV a = .OTHER ∧
      (hasSub a "reinvest" = false → classifyActionJSON a = .OTHER) ∧
      (hasSub a "reinvest" = true → classifyActionJSON a = .DIVIDEND)) ∧
    (∀ a, hasSub a "reinvest" = false → classifyActionJSON a = classifyActionCSV a) := by
  refine ⟨by decide, by decide, by decide, by decide, by decide, ?_, ?_, ?_⟩
  · intro a h
    exact ⟨by simp [classifyActionCSV, h], by simp [classifyActionJSON, h]⟩
  · intro a h1 h2 h3 h4 h5 h6 h7 h8
    refine ⟨by simp [classifyActionCSV, h1, h2, h3, h4, h5, h6, h7, h8], ?_, ?_⟩
    · intro h9
      simp [classifyActionJSON, h1, h2, h3, h4, h5, h6, h7, h8, h9]
    · intro h9
      simp [classifyActionJSON, h1, h2, h3, h4, h5, h6, h7, h8, h9]
  · intro a h
    simp [classifyActionJSON, classifyActionCSV, h]

/-- C6 witness: the keyword rules applied to a text containing "buy" and to
a keyword-free text where both paths agree. -/
theorem C6_witness :
    classifyActionCSV "buy stock" = .BUY ∧
    classifyActionJSON "wire transfer" = classifyActionCSV "wire transfer" :=
  ⟨(C6_action_classification.2.2.2.2.2.1 "buy stock" (by decide)).1,
   C6_action_classification.2.2.2.2.2.2.2 "wire transfer" (by decide)⟩

/-- C7: the transactions entry point parses as JSON exactly when the
trimmed content starts with a brace or bracket or the filename ends in
".json" (case-insensitively), and as CSV otherwise; on the JSON path a
failed JSON.parse is caught and yields the empty list. -/
theorem C7_format_detection (nowISO : String) (jsDate : String → Option String)
    (jsonParse : String → Option JValue) (content : String) (filename : Option String) :
    (((jsStartsWith (jsTrim content) "\x7b" || jsStartsWith (jsTrim content) "[") = true ∨
        (match filename with
         | some f => jsEndsWith (strLower f) ".json"
         | none => false) = true) →
      parseSchwabTransactions nowISO jsDate jsonParse content filename =
        parseSchwabTransactionsJSON nowISO jsDate jsonParse content) ∧
    ((jsStartsWith (jsTrim content) "\x7b" || jsStartsWith (jsTrim content) "[") = false →
      (match filename with
       | some f => jsEndsWith (strLower f) ".json"
       | none => false) = false →
      parseSchwabTransactions nowISO jsDate jsonParse content filename =
        parseSchwabTransactionsCSV nowISO jsDate content) ∧
    (jsonParse content = none →
      parseSchwabTransactionsJSON nowISO jsDate jsonParse content = []) := by
  refine ⟨?_, ?_, ?_⟩
  · intro h
    rcases h with h | h
    · simp [parseSchwabTransactions, h]
    · cases hab : (jsStartsWith (jsTrim content) "\x7b" || jsStartsWith (jsTrim content) "[") <;>
        simp [parseSchwabTransactions, hab, h]
  · intro h1 h2
    simp [parseSchwabTransactions, h1, h2]
  · intro h
    simp [parseSchwabTransactionsJSON, h]

/-- C7 witness: bracket-leading content dispatches to the JSON path, and an
invalid JSON document yields the empty list. -/
theorem C7_witness :
    parseSchwabTransactions "N" (fun _ => none) (fun _ => none) "  [1, 2]" none =
      parseSchwabTransactionsJSON "N" (fun _ => none) (fun _ => none) "  [1, 2]" ∧
    parseSchwabTransactionsJSON "N" (fun _ => none) (fun _ => none) "  [1, 2]" = [] :=
  ⟨(C7_format_detection "N" (fun _ => none) (fun _ => none) "  [1, 2]" none).1
      (Or.inl (by decide)),
   (C7_format_detection "N" (fun _ => none) (fun _ => none) "  [1, 2]" none).2.2 rfl⟩

/-- C8: one save replaces the stored holdings with exactly the snapshot's
holdings, appends exactly the snapshot transactions beyond the stored
count (never deleting or rewriting stored transactions, which stay as a
prefix), upserts the totals, and leaves every other user's stored state
unchanged; the whole update is a single atomic step of the store. -/
theorem C8_savePortfolioData (store : Store) (userId : String) (data : PortfolioData) :
    savePortfolioData userId data store userId =
      some { totalValue := data.totalValue
             totalCost := data.totalCost
             totalGainLoss := data.totalGainLoss
             totalGainLossPercent := data.totalGainLossPercent
             cashBalance := data.cashBalance
             lastUpdated := data.lastUpdated
             holdings := data.holdings
             transactions := storedTxs store userId ++
               data.transactions.drop (storedTxs store userId).length } ∧
    (∀ uid, uid ≠ userId → savePortfolioData userId data store uid = store uid) := by
  constructor
  · unfold savePortfolioData
    rw [if_pos rfl]
    congr 1
    refine StoredPortfolio.mk.injEq .. |>.mpr ?_
    refine ⟨rfl, rfl, rfl, rfl, rfl, rfl, rfl, ?_⟩
    split
    · split
      · rfl
      · next h2 =>
        rw [List.drop_eq_nil_of_le (le_of_not_lt h2), List.append_nil]
    · next h1 =>
      have hnil : data.transactions = [] :=
        List.length_eq_zero.mp (Nat.eq_zero_of_not_pos h1)
      rw [hnil]
      simp
  · intro uid huid
    unfold savePortfolioData
    rw [if_neg huid]

/-- C8 witness: saving for one user leaves another user's stored state
untouched. -/
theorem C8_witness :
    savePortfolioData "alice" demoData emptyStore "bob" = emptyStore "bob" :=
  (C8_savePortfolioData emptyStore "alice" demoData).2 "bob" (by decide)

/-- C9 counterexample: the claim that every field of the snapshot,
lastUpdated included, is determined by the holdings and transactions alone
is false: two calls at different clock readings with the same inputs give
different snapshots. -/
theorem C9_counterexample :
    calculatePortfolioTotals "2026-01-01T00:00:00.000Z" [] [] ≠
      calculatePortfolioTotals "2026-01-02T00:00:00.000Z" [] [] := by decide

/-- C9 amended: `calculatePortfolioTotals` is pure except for reading the
clock: every field other than lastUpdated is determined by the holdings
and transactions alone, and lastUpdated is exactly the clock reading. -/
theorem C9_pure_except_clock (now1 now2 : String) (hs : List Holding)
    (ts : List Transaction) :
    (calculatePortfolioTotals now1 hs ts).holdings =
      (calculatePortfolioTotals now2 hs ts).holdings ∧
    (calculatePortfolioTotals now1 hs ts).transactions =
      (calculatePortfolioTotals now2 hs ts).transactions ∧
    (calculatePortfolioTotals now1 hs ts).totalValue =
      (calculatePortfolioTotals now2 hs ts).totalValue ∧
    (calculatePortfolioTotals now1 hs ts).totalCost =
      (calculatePortfolioTotals now2 hs ts).totalCost ∧
    (calculatePortfolioTotals now1 hs ts).totalGainLoss =
      (calculatePortfolioTotals now2 hs ts).totalGainLoss ∧
    (calculatePortfolioTotals now1 hs ts).totalGainLossPercent =
      (calculatePortfolioTotals now2 hs ts).totalGainLossPercent ∧
    (calculatePortfolioTotals now1 hs ts).cashBalance =
      (calculatePortfolioTotals now2 hs ts).cashBalance ∧
    (calculatePortfolioTotals now1 hs ts).lastUpdated = now1 :=
  ⟨rfl, rfl, rfl, rfl, rfl, rfl, rfl, rfl⟩

/-- C10: when the trimmed input splits into fewer than two lines, both CSV
parsers return the empty list; in particular a file with only a header row
yields no records. -/
theorem C10_short_input (s : String) (h : (splitLines (jsTrim s)).length < 2) :
    parseSchwabPositionsCSV s = [] ∧
    ∀ nowISO jsDate, parseSchwabTransactionsCSV nowISO jsDate s = [] := by
  constructor
  · unfold parseSchwabPositionsCSV
    simp [h]
  · intro nowISO jsDate
    unfold parseSchwabTransactionsCSV
    simp [h]

/-- C10 witness: a single header line yields no holdings and no
transactions. -/
theorem C10_witness :
    parseSchwabPositionsCSV "Date,Action,Symbol,Quantity" = [] ∧
    ∀ nowISO jsDate,
      parseSchwabTransactionsCSV nowISO jsDate "Date,Action,Symbol,Quantity" = [] :=
  C10_short_input "Date,Action,Symbol,Quantity" (by decide)

end Schwab
